import Mathlib

/-!
Shallow embedding of the music_for_dummies frontend analysis code.

The only analysis producer in the repository is `generateMockAnalysis`
(frontend/src/utils/mockData.ts).  JavaScript numbers are modelled as ℚ
(all constants in the source are small decimals and every claim compares
them with generous margins).  The two ambient effects the function uses,
`Math.random()` and `Date.now()`, are made explicit parameters: `rand i`
is the value of the i-th `Math.random()` call (the source draws one per
measure, in measure order) and `now` is the value of `Date.now()`.
-/

namespace MusicForDummies

/-- types/music.ts BoundingBox: four numbers, fractions of page size. -/
structure BoundingBox where
  x : ℚ
  y : ℚ
  width : ℚ
  height : ℚ
deriving DecidableEq, Repr

/-- The mode field of a Key: the TS union type major | minor. -/
inductive Mode where
  | major
  | minor
deriving DecidableEq, Repr

/-- types/music.ts Key: tonic name, mode, signed sharp/flat count. -/
structure Key where
  tonic : String
  mode : Mode
  signature : ℤ
deriving DecidableEq, Repr

/-- types/music.ts ChordFunction union type. -/
inductive ChordFunction where
  | tonic
  | predominant
  | dominant
  | secondary_dominant
  | borrowed
  | diminished
  | augmented
  | passing
  | neighbor
  | unknown
deriving DecidableEq, Repr

/-- types/music.ts ChordAnalysis. -/
structure ChordAnalysis where
  id : String
  symbol : String
  root : String
  quality : String
  bass : Option String := none
  notes : List String
  boundingBox : BoundingBox
  romanNumeral : String
  function : ChordFunction
  confidence : ℚ
  beatPosition : ℚ
deriving DecidableEq, Repr

/-- types/music.ts NoteInfo. -/
structure NoteInfo where
  pitch : String
  duration : String
  boundingBox : BoundingBox
deriving DecidableEq, Repr

/-- types/music.ts Beat. -/
structure Beat where
  number : ℕ
  notes : List NoteInfo
  chord : Option ChordAnalysis := none
deriving DecidableEq, Repr

/-- The anonymous time-signature record inside Measure. -/
structure TimeSignature where
  numerator : ℕ
  denominator : ℕ
deriving DecidableEq, Repr

/-- types/music.ts Measure. -/
structure Measure where
  number : ℕ
  boundingBox : BoundingBox
  beats : List Beat
  localKey : Key
  chords : List ChordAnalysis
  timeSignature : TimeSignature
deriving DecidableEq, Repr

/-- types/music.ts Modulation. -/
structure Modulation where
  measureNumber : ℕ
  fromKey : Key
  toKey : Key
  pivotChord : Option ChordAnalysis := none
  reasoning : String
  boundingBox : BoundingBox
deriving DecidableEq, Repr

/-- types/music.ts ChordProgression. -/
structure ChordProgression where
  romanNumerals : List String
  commonName : Option String := none
deriving DecidableEq, Repr

/-- types/music.ts PageAnalysis. -/
structure PageAnalysis where
  pageNumber : ℕ
  measures : List Measure
  imageUrl : Option String := none
deriving DecidableEq, Repr

/-- The status union of AnalysisResult. -/
inductive Status where
  | pending
  | processing
  | completed
  | error
deriving DecidableEq, Repr

/-- types/music.ts AnalysisResult; the optional error field is `none`
when the TS object omits it. -/
structure AnalysisResult where
  id : String
  filename : String
  pages : List PageAnalysis
  globalKey : Key
  modulations : List Modulation
  chordProgression : ChordProgression
  status : Status
  error : Option String := none
deriving DecidableEq, Repr

/-- One entry of the chordProgressions table in generateMockAnalysis. -/
structure ChordSpec where
  symbol : String
  root : String
  quality : String
  notes : List String
  roman : String
  func : ChordFunction
deriving DecidableEq, Repr

/-- mockData.ts: the chordProgressions array (4 progressions of 4 chords). -/
def chordProgressions : List (List ChordSpec) :=
  [ [ ⟨"C", "C", "maj", ["C", "E", "G"], "I", .tonic⟩,
      ⟨"G", "G", "maj", ["G", "B", "D"], "V", .dominant⟩,
      ⟨"Am", "A", "m", ["A", "C", "E"], "vi", .tonic⟩,
      ⟨"F", "F", "maj", ["F", "A", "C"], "IV", .predominant⟩ ],
    [ ⟨"C", "C", "maj", ["C", "E", "G"], "I", .tonic⟩,
      ⟨"F", "F", "maj", ["F", "A", "C"], "IV", .predominant⟩,
      ⟨"G7", "G", "7", ["G", "B", "D", "F"], "V7", .dominant⟩,
      ⟨"C", "C", "maj", ["C", "E", "G"], "I", .tonic⟩ ],
    [ ⟨"Dm7", "D", "m7", ["D", "F", "A", "C"], "ii7", .predominant⟩,
      ⟨"G7", "G", "7", ["G", "B", "D", "F"], "V7", .dominant⟩,
      ⟨"Cmaj7", "C", "maj7", ["C", "E", "G", "B"], "Imaj7", .tonic⟩,
      ⟨"Am7", "A", "m7", ["A", "C", "E", "G"], "vi7", .tonic⟩ ],
    [ ⟨"C", "C", "maj", ["C", "E", "G"], "I", .tonic⟩,
      ⟨"Am", "A", "m", ["A", "C", "E"], "vi", .tonic⟩,
      ⟨"F", "F", "maj", ["F", "A", "C"], "IV", .predominant⟩,
      ⟨"G", "G", "maj", ["G", "B", "D"], "V", .dominant⟩ ] ]

/-- The chord data picked for loop index i:
`chordProgressions[Math.floor(i / 4) % chordProgressions.length][i % 4]`.
Both indices are in bounds, so the `getD` defaults are never reached. -/
def chordDataAt (i : ℕ) : ChordSpec :=
  ((chordProgressions.getD ((i / 4) % chordProgressions.length) []).getD (i % 4)
    ⟨"", "", "", [], "", .unknown⟩)

/-- `const measureX = (i % 4) * 0.22 + 0.06`. -/
def measureX (i : ℕ) : ℚ := (i % 4 : ℕ) * 0.22 + 0.06

/-- `const measureY = Math.floor(i / 4) * 0.18 + 0.15`. -/
def measureY (i : ℕ) : ℚ := (i / 4 : ℕ) * 0.18 + 0.15

/-- The ChordAnalysis built in iteration i of the measure loop; `rand i`
is that iteration's `Math.random()` draw. -/
def mkChord (rand : ℕ → ℚ) (i : ℕ) : ChordAnalysis :=
  { id := "chord-" ++ toString i
    symbol := (chordDataAt i).symbol
    root := (chordDataAt i).root
    quality := (chordDataAt i).quality
    notes := (chordDataAt i).notes
    boundingBox :=
      { x := measureX i + 0.02
        y := measureY i + 0.02
        width := 0.16
        height := 0.12 }
    romanNumeral := (chordDataAt i).roman
    function := (chordDataAt i).func
    confidence := 0.85 + rand i * 0.15
    beatPosition := 1 }

/-- One note of the beat: `chordData.notes.map((note, idx) => ...)`. -/
def mkNote (i : ℕ) (idx : ℕ) (note : String) : NoteInfo :=
  { pitch := note ++ "4"
    duration := "quarter"
    boundingBox :=
      { x := measureX i + 0.02 + idx * 0.04
        y := measureY i + 0.04
        width := 0.03
        height := 0.08 } }

/-- The Measure pushed in iteration i of the loop. -/
def mkMeasure (globalKey : Key) (rand : ℕ → ℚ) (i : ℕ) : Measure :=
  { number := i + 1
    boundingBox :=
      { x := measureX i
        y := measureY i
        width := 0.20
        height := 0.16 }
    beats :=
      [ { number := 1
          notes := (chordDataAt i).notes.enum.map fun p => mkNote i p.1 p.2
          chord := some (mkChord rand i) } ]
    localKey := globalKey
    chords := [mkChord rand i]
    timeSignature := ⟨4, 4⟩ }

/-- The reasoning string of the demonstration modulation. -/
def modulationReasoning : String :=
  "The G major chord (V in C) becomes I in the new key of G major. This is a common pivot chord modulation to the dominant key."

/-- mockData.ts generateMockAnalysis, with the two ambient effects
(`Math.random()` per-measure draws and `Date.now()`) passed explicitly. -/
def generateMockAnalysis (filename : String) (rand : ℕ → ℚ) (now : ℤ) :
    AnalysisResult :=
  let globalKey : Key := ⟨"C", .major, 0⟩
  let measures : List Measure := (List.range 16).map (mkMeasure globalKey rand)
  let modulation : Modulation :=
    { measureNumber := 9
      fromKey := ⟨"C", .major, 0⟩
      toKey := ⟨"G", .major, 1⟩
      pivotChord := (measures.get? 7).bind fun m => m.chords.get? 0
      reasoning := modulationReasoning
      boundingBox := { x := 0.06, y := 0.51, width := 0.88, height := 0.02 } }
  let page : PageAnalysis := { pageNumber := 1, measures := measures }
  { id := "analysis-" ++ toString now
    filename := filename
    pages := [page]
    globalKey := globalKey
    modulations := [modulation]
    chordProgression :=
      { romanNumerals := ["I", "V", "vi", "IV", "I", "IV", "V7", "I", "ii7",
          "V7", "Imaj7", "vi7", "I", "vi", "IV", "V"]
        commonName := some ("Mixed progressions (Pop, Classic, Jazz, 50s)") }
    status := .completed }

/-- All ChordAnalysis records of a result, page by page, measure by
measure, in order. -/
def allChords (r : AnalysisResult) : List ChordAnalysis :=
  (r.pages.flatMap fun p => p.measures).flatMap fun m => m.chords

/-- Every Key value appearing in a result: the global key, each measure's
local key, and both keys of every modulation. -/
def collectKeys (r : AnalysisResult) : List Key :=
  r.globalKey :: ((r.pages.flatMap fun p => p.measures).map fun m => m.localKey)
    ++ r.modulations.flatMap fun m => [m.fromKey, m.toKey]

/-- Every bounding box of one measure: its own box, its chords' boxes and,
through its beats, its notes' and beat-chords' boxes. -/
def measureBoxes (m : Measure) : List BoundingBox :=
  m.boundingBox :: (m.chords.map fun c => c.boundingBox)
    ++ m.beats.flatMap fun b =>
        (b.notes.map fun n => n.boundingBox)
          ++ (b.chord.toList.map fun c => c.boundingBox)

/-- Every bounding box appearing in a result (measures, chords, notes,
modulations). -/
def collectBoxes (r : AnalysisResult) : List BoundingBox :=
  ((r.pages.flatMap fun p => p.measures).flatMap measureBoxes)
    ++ r.modulations.map fun m => m.boundingBox

/-- Modelled from the spec: the standard key-signature rule assigning each
(tonic, mode) pair its signed count of sharps (+) or flats (-); the
repository has no function computing it, the spec calls it the standard
rule, so it is spelled out here as the usual circle-of-fifths table.
Returns `none` on a tonic spelling outside the standard 15-per-mode set. -/
def standardSignature (tonic : String) (mode : Mode) : Option ℤ :=
  match mode with
  | .major =>
    match tonic with
    | "C" => some 0 | "G" => some 1 | "D" => some 2 | "A" => some 3
    | "E" => some 4 | "B" => some 5 | "F#" => some 6 | "C#" => some 7
    | "F" => some (-1) | "Bb" => some (-2) | "Eb" => some (-3)
    | "Ab" => some (-4) | "Db" => some (-5) | "Gb" => some (-6)
    | "Cb" => some (-7)
    | _ => none
  | .minor =>
    match tonic with
    | "A" => some 0 | "E" => some 1 | "B" => some 2 | "F#" => some 3
    | "C#" => some 4 | "G#" => some 5 | "D#" => some 6 | "A#" => some 7
    | "D" => some (-1) | "G" => some (-2) | "C" => some (-3)
    | "F" => some (-4) | "Bb" => some (-5) | "Eb" => some (-6)
    | "Ab" => some (-7)
    | _ => none

/-! ## UploadScreen.tsx: the progress reports of handleFile

`handleFile` reports progress to the store through `setAnalysisProgress`:
once with 0.2 after the upload succeeds, then, on each poll that finds the
analysis still in progress, with `0.2 + (attempts / 60) * 0.7` after
incrementing `attempts`.  A poll whose `getAnalysis` resolves with status
`completed` stops; one that throws (network error, 404, status `error`,
timeout) is caught, increments `attempts` and reports nothing.  The state
of the outside world is made explicit as the list of successive poll
outcomes. -/

/-- What one call of pollAnalysis observes. -/
inductive PollOutcome where
  | completed
  | processing
  | failed
deriving DecidableEq, Repr

/-- `0.2 + (attempts / maxAttempts) * 0.7` with maxAttempts = 60. -/
def pollProg (attempts : ℕ) : ℚ := 0.2 + ((attempts : ℚ) / 60) * 0.7

/-- The progress values reported by the polling loop, starting from the
given attempts counter, as the outcomes unfold. -/
def pollReports : ℕ → List PollOutcome → List ℚ
  | _, [] => []
  | _, .completed :: _ => []
  | attempts, .processing :: rest =>
      if attempts + 1 < 60 then
        pollProg (attempts + 1) :: pollReports (attempts + 1) rest
      else []
  | attempts, .failed :: rest =>
      if attempts + 1 < 60 then pollReports (attempts + 1) rest else []

/-- The full sequence of progress fractions one handleFile run reports:
nothing when the upload fails (the mock fallback sets no progress),
otherwise 0.2 followed by the polling loop's reports. -/
def handleFileReports (uploadOk : Bool) (outcomes : List PollOutcome) :
    List ℚ :=
  if uploadOk then 0.2 :: pollReports 0 outcomes else []

/-! ## store/useStore.ts: the Zustand store -/

/-- The File object held by the store; only its name and MIME type are
ever read by this frontend. -/
structure JsFile where
  name : String
  mime : String
deriving DecidableEq, Repr

/-- The data payload of a HoverTarget (TS union of the four record types). -/
inductive HoverData where
  | chord (c : ChordAnalysis)
  | measure (m : Measure)
  | note (n : NoteInfo)
  | modulation (m : Modulation)
deriving DecidableEq, Repr

/-- The position record of a HoverTarget. -/
structure Position where
  x : ℚ
  y : ℚ
deriving DecidableEq, Repr

/-- types/music.ts HoverTarget. -/
structure HoverTarget where
  type : String
  data : HoverData
  position : Position
deriving DecidableEq, Repr

/-- The AppState record of useStore.ts (state fields only). -/
structure AppState where
  pdfFile : Option JsFile
  pdfUrl : Option String
  currentPage : ℤ
  totalPages : ℤ
  scale : ℚ
  analysis : Option AnalysisResult
  isAnalyzing : Bool
  analysisProgress : ℚ
  hoverTarget : Option HoverTarget
  selectedMeasure : Option ℤ
  showSidebar : Bool
  currentKey : Option Key
deriving DecidableEq, Repr

/-- useStore.ts initialState. -/
def initialState : AppState :=
  { pdfFile := none
    pdfUrl := none
    currentPage := 1
    totalPages := 0
    scale := 1.0
    analysis := none
    isAnalyzing := false
    analysisProgress := 0
    hoverTarget := none
    selectedMeasure := none
    showSidebar := true
    currentKey := none }

/-- The store actions, one constructor per action of useStore.ts. -/
inductive Action where
  | setPdfFile (f : Option JsFile)
  | setPdfUrl (u : Option String)
  | setCurrentPage (p : ℤ)
  | setTotalPages (p : ℤ)
  | setScale (s : ℚ)
  | setAnalysis (a : Option AnalysisResult)
  | setIsAnalyzing (b : Bool)
  | setAnalysisProgress (p : ℚ)
  | setHoverTarget (t : Option HoverTarget)
  | setSelectedMeasure (m : Option ℤ)
  | toggleSidebar
  | setCurrentKey (k : Option Key)
  | reset

/-- One store update; Zustand's `set` merges the given fields into the
state, so each case copies the untouched fields. -/
def step (σ : AppState) : Action → AppState
  | .setPdfFile f => { σ with pdfFile := f }
  | .setPdfUrl u => { σ with pdfUrl := u }
  | .setCurrentPage p => { σ with currentPage := p }
  | .setTotalPages p => { σ with totalPages := p }
  | .setScale s => { σ with scale := max 0.5 (min 3 s) }
  | .setAnalysis a =>
      { σ with
        analysis := a
        currentKey := a.map fun r => r.globalKey }
  | .setIsAnalyzing b => { σ with isAnalyzing := b }
  | .setAnalysisProgress p => { σ with analysisProgress := p }
  | .setHoverTarget t => { σ with hoverTarget := t }
  | .setSelectedMeasure m => { σ with selectedMeasure := m }
  | .toggleSidebar => { σ with showSidebar := !σ.showSidebar }
  | .setCurrentKey k => { σ with currentKey := k }
  | .reset => initialState

/-- The state after a sequence of actions from the initial state. -/
def reachAfter (acts : List Action) : AppState :=
  acts.foldl step initialState

/-- A bounding box normalized to page dimensions: every field in [0, 1],
positive width and height, and the box contained in the page. -/
def boxNormalized (b : BoundingBox) : Prop :=
  0 ≤ b.x ∧ b.x ≤ 1 ∧ 0 ≤ b.y ∧ b.y ≤ 1 ∧ 0 < b.width ∧ b.width ≤ 1
    ∧ 0 < b.height ∧ b.height ≤ 1 ∧ b.x + b.width ≤ 1 ∧ b.y + b.height ≤ 1

/-- A placeholder ChordAnalysis used only as the default of headD. -/
def defaultChord : ChordAnalysis :=
  ⟨"", "", "", "", none, [], ⟨0, 0, 0, 0⟩, "", .unknown, 0, 0⟩

/-! ## Structural lemmas about the mock generator's output -/

/-- The chords of the result are exactly the 16 per-measure chords. -/
lemma allChords_mock (f : String) (r : ℕ → ℚ) (n : ℤ) :
    allChords (generateMockAnalysis f r n) = (List.range 16).map (mkChord r) :=
  rfl

/-- The modulation list of the result is the single demonstration
modulation at measure 9. -/
lemma modulations_mock (f : String) (r : ℕ → ℚ) (n : ℤ) :
    (generateMockAnalysis f r n).modulations =
      [⟨9, ⟨"C", .major, 0⟩, ⟨"G", .major, 1⟩, some (mkChord r 7),
        modulationReasoning, ⟨0.06, 0.51, 0.88, 0.02⟩⟩] :=
  rfl

/-- The boxes of the result: the 16 measures' boxes followed by the
modulation's box. -/
lemma collectBoxes_mock (f : String) (r : ℕ → ℚ) (n : ℤ) :
    collectBoxes (generateMockAnalysis f r n) =
      ((List.range 16).flatMap fun i =>
        measureBoxes (mkMeasure ⟨"C", Mode.major, 0⟩ r i))
        ++ [⟨0.06, 0.51, 0.88, 0.02⟩] :=
  rfl

/-- The keys of a mock result never depend on the filename, the random
draws or the clock. -/
lemma collectKeys_mock (f : String) (r : ℕ → ℚ) (n : ℤ) :
    collectKeys (generateMockAnalysis f r n) =
      collectKeys (generateMockAnalysis ("") (fun _ => 0) 0) :=
  rfl

/-- Every chord-data entry of the table has at most 4 notes. -/
lemma chordDataAt_notes_length (i : ℕ) : (chordDataAt i).notes.length ≤ 4 := by
  unfold chordDataAt
  have hlen : chordProgressions.length = 4 := rfl
  have h1 : (i / 4) % chordProgressions.length < 4 := by
    rw [hlen]; omega
  have h2 : i % 4 < 4 := by omega
  have htab : ∀ j < 4, ∀ k < 4,
      ((chordProgressions.getD j []).getD k
        ⟨"", "", "", [], "", .unknown⟩).notes.length ≤ 4 := by decide
  exact htab _ h1 _ h2

/-- Bounds of a box whose fields are given literally: the remaining
field-wise bounds of boxNormalized follow from positivity and containment. -/
lemma boxNormalized_mk {x y w h : ℚ} (h1 : 0 ≤ x) (h2 : 0 ≤ y) (h3 : 0 < w)
    (h4 : 0 < h) (h5 : x + w ≤ 1) (h6 : y + h ≤ 1) :
    boxNormalized ⟨x, y, w, h⟩ := by
  unfold boxNormalized
  exact ⟨h1, by linarith, h2, by linarith, h3, by linarith, h4, by linarith,
    h5, h6⟩

/-- pollProg is monotone in the attempts counter. -/
lemma pollProg_mono {a b : ℕ} (h : a ≤ b) : pollProg a ≤ pollProg b := by
  unfold pollProg
  have hc : (a : ℚ) ≤ b := by exact_mod_cast h
  linarith

/-- Every value the polling loop reports from counter a is at least the
progress fraction belonging to a. -/
lemma pollReports_lower (rest : List PollOutcome) :
    ∀ (a : ℕ), ∀ x ∈ pollReports a rest, pollProg a ≤ x := by
  induction rest with
  | nil => intro a x hx; simp [pollReports] at hx
  | cons o rest ih =>
    intro a x hx
    cases o with
    | completed => simp [pollReports] at hx
    | processing =>
      simp only [pollReports] at hx
      by_cases h60 : a + 1 < 60
      · rw [if_pos h60] at hx
        rcases List.mem_cons.1 hx with rfl | hx'
        · exact pollProg_mono (Nat.le_succ a)
        · exact le_trans (pollProg_mono (Nat.le_succ a)) (ih (a + 1) x hx')
      · rw [if_neg h60] at hx
        simp at hx
    | failed =>
      simp only [pollReports] at hx
      by_cases h60 : a + 1 < 60
      · rw [if_pos h60] at hx
        exact le_trans (pollProg_mono (Nat.le_succ a)) (ih (a + 1) x hx)
      · rw [if_neg h60] at hx
        simp at hx

/-- The polling loop's reports are non-decreasing. -/
lemma pollReports_chain (rest : List PollOutcome) :
    ∀ a, List.Chain' (· ≤ ·) (pollReports a rest) := by
  induction rest with
  | nil => intro a; simp [pollReports]
  | cons o rest ih =>
    intro a
    cases o with
    | completed => simp [pollReports]
    | processing =>
      simp only [pollReports]
      by_cases h60 : a + 1 < 60
      · rw [if_pos h60]
        exact List.chain'_cons'.2
          ⟨fun y hy =>
            pollReports_lower rest (a + 1) y (List.mem_of_mem_head? hy),
           ih (a + 1)⟩
      · rw [if_neg h60]; simp
    | failed =>
      simp only [pollReports]
      by_cases h60 : a + 1 < 60
      · rw [if_pos h60]; exact ih (a + 1)
      · rw [if_neg h60]; simp

/-- One store step keeps the scale inside [0.5, 3]. -/
lemma step_scale_bounds (σ : AppState) (a : Action)
    (h : 0.5 ≤ σ.scale ∧ σ.scale ≤ 3) :
    0.5 ≤ (step σ a).scale ∧ (step σ a).scale ≤ 3 := by
  cases a with
  | setScale s =>
    constructor
    · show (0.5 : ℚ) ≤ max 0.5 (min 3 s)
      exact le_max_left _ _
    · show max 0.5 (min 3 s) ≤ 3
      exact max_le (by norm_num) (min_le_left _ _)
  | reset =>
    constructor
    · show (0.5 : ℚ) ≤ initialState.scale
      norm_num [initialState]
    · show initialState.scale ≤ 3
      norm_num [initialState]
  | setPdfFile f => exact h
  | setPdfUrl u => exact h
  | setCurrentPage p => exact h
  | setTotalPages p => exact h
  | setAnalysis x => exact h
  | setIsAnalyzing b => exact h
  | setAnalysisProgress p => exact h
  | setHoverTarget t => exact h
  | setSelectedMeasure m => exact h
  | toggleSidebar => exact h
  | setCurrentKey k => exact h

/-- Folding store steps keeps the scale inside [0.5, 3]. -/
lemma foldl_scale_bounds (acts : List Action) :
    ∀ σ : AppState, 0.5 ≤ σ.scale ∧ σ.scale ≤ 3 →
      0.5 ≤ (acts.foldl step σ).scale ∧ (acts.foldl step σ).scale ≤ 3 := by
  induction acts with
  | nil => intro σ h; exact h
  | cons a acts ih =>
    intro σ h
    exact ih (step σ a) (step_scale_bounds σ a h)

/-! ## The claims -/

/-- C1: the analysis operation is NOT a deterministic pure function of its
input: with the same filename and the same clock value, two runs whose
`Math.random()` draws differ (0 versus 0.5, both legal draws) return
different AnalysisResult values, because the per-chord confidence is
`0.85 + Math.random() * 0.15`.  This refutes the claimed idempotence on
the code as written; the spec itself flags the mock's randomness as a
placeholder the design forbids, so the code, not the claim, is at fault. -/
theorem generateMockAnalysis_randomizes :
    generateMockAnalysis ("score.pdf") (fun _ => 0) 0
      ≠ generateMockAnalysis ("score.pdf") (fun _ => 1/2) 0 := by
  intro h
  have h2 : (0.85 + (0 : ℚ) * 0.15) = 0.85 + (1/2 : ℚ) * 0.15 :=
    congrArg (fun res => ((allChords res).headD defaultChord).confidence) h
  norm_num at h2

/-- C2: for every input (the generator ignores the uploaded notation, so
in particular for the C4-E4-G4 / G4-B4-D5 / A4-C5-E5 / F4-A4-C5 measure
of quarter notes in 4/4), the first four ChordAnalysis records of the
result have symbols C, G, Am, F, Roman numerals I, V, vi, IV, functions
tonic, dominant, tonic, predominant, and the global key is C major. -/
theorem first_four_chords_expected (f : String) (r : ℕ → ℚ) (n : ℤ) :
    (((allChords (generateMockAnalysis f r n)).take 4).map fun c => c.symbol)
        = ["C", "G", "Am", "F"]
    ∧ (((allChords (generateMockAnalysis f r n)).take 4).map
          fun c => c.romanNumeral)
        = ["I", "V", "vi", "IV"]
    ∧ (((allChords (generateMockAnalysis f r n)).take 4).map
          fun c => c.function)
        = [.tonic, .dominant, .tonic, .predominant]
    ∧ (generateMockAnalysis f r n).globalKey = ⟨"C", Mode.major, 0⟩ :=
  ⟨rfl, rfl, rfl, rfl⟩

/-- C3: every Key value appearing in a produced AnalysisResult (global
key, measure local keys, modulation fromKey and toKey) has its signature
field equal to the value the standard key-signature rule assigns its
(tonic, mode) pair. -/
theorem keys_signature_standard (f : String) (r : ℕ → ℚ) (n : ℤ) :
    ∀ k ∈ collectKeys (generateMockAnalysis f r n),
      standardSignature k.tonic k.mode = some k.signature := by
  intro k hk
  rw [collectKeys_mock] at hk
  exact (by decide :
    ∀ k ∈ collectKeys (generateMockAnalysis ("") (fun _ => 0) 0),
      standardSignature k.tonic k.mode = some k.signature) k hk

/-- Witness for C3 at the global key of a concrete run. -/
theorem keys_signature_standard_witness :
    standardSignature ("C") Mode.major = some 0 :=
  keys_signature_standard ("a") (fun _ => 0) 0 ⟨"C", Mode.major, 0⟩
    (by decide)

/-- C4: the analysis operation is total (the Lean embedding is a total
function, mirroring that the TS code has no throw) and every result it
returns carries status completed with no error field. -/
theorem analysis_completes_without_error (f : String) (r : ℕ → ℚ) (n : ℤ) :
    (generateMockAnalysis f r n).status = Status.completed
      ∧ (generateMockAnalysis f r n).error = none :=
  ⟨rfl, rfl⟩

/-- C5: no modulation of a produced result lies within the first 2
measures, and no two modulations with the same toKey sit in immediately
consecutive measures (the single demonstration modulation is at
measure 9). -/
theorem modulation_hysteresis (f : String) (r : ℕ → ℚ) (n : ℤ) :
    (∀ m ∈ (generateMockAnalysis f r n).modulations, 2 < m.measureNumber)
    ∧ (∀ m₁ ∈ (generateMockAnalysis f r n).modulations,
        ∀ m₂ ∈ (generateMockAnalysis f r n).modulations,
          m₁.toKey = m₂.toKey → m₁.measureNumber + 1 ≠ m₂.measureNumber) := by
  rw [modulations_mock]
  constructor
  · intro m hm
    rw [List.mem_singleton] at hm
    subst hm
    norm_num
  · intro m₁ h₁ m₂ h₂ _
    rw [List.mem_singleton] at h₁ h₂
    subst h₁; subst h₂
    norm_num

/-- Witness for C5 at the one modulation of a concrete run. -/
theorem modulation_hysteresis_witness :
    2 < (Modulation.mk 9 ⟨"C", .major, 0⟩ ⟨"G", .major, 1⟩
        (some (mkChord (fun _ => 0) 7)) modulationReasoning
        ⟨0.06, 0.51, 0.88, 0.02⟩).measureNumber :=
  (modulation_hysteresis ("a") (fun _ => 0) 0).1 _
    (by rw [modulations_mock]; exact List.mem_singleton_self _)

/-- C6: under the Math.random contract (every draw in [0, 1)) every chord
of the produced result has confidence in the closed interval [0, 1]. -/
theorem chord_confidence_unit_interval (f : String) (r : ℕ → ℚ) (n : ℤ)
    (hr : ∀ i, 0 ≤ r i ∧ r i < 1) :
    ∀ c ∈ allChords (generateMockAnalysis f r n),
      0 ≤ c.confidence ∧ c.confidence ≤ 1 := by
  intro c hc
  rw [allChords_mock] at hc
  obtain ⟨i, _, rfl⟩ := List.mem_map.1 hc
  obtain ⟨hr0, hr1⟩ := hr i
  constructor
  · show (0 : ℚ) ≤ 0.85 + r i * 0.15
    linarith
  · show (0.85 : ℚ) + r i * 0.15 ≤ 1
    linarith

/-- Witness for C6 at the first chord of a concrete run with all draws 0. -/
theorem chord_confidence_unit_interval_witness :
    0 ≤ (mkChord (fun _ => 0) 0).confidence
      ∧ (mkChord (fun _ => 0) 0).confidence ≤ 1 :=
  chord_confidence_unit_interval ("a") (fun _ => 0) 0
    (fun _ => ⟨le_refl 0, by norm_num⟩)
    (mkChord (fun _ => 0) 0)
    (by rw [allChords_mock]
        exact List.mem_map_of_mem _ (List.mem_range.2 (by norm_num)))

/-- C7: every bounding box of a produced result (measures, chords, notes
and the modulation) has all four fields in [0, 1], positive width and
height, and stays inside the page: x + width ≤ 1 and y + height ≤ 1. -/
theorem bounding_boxes_normalized (f : String) (r : ℕ → ℚ) (n : ℤ) :
    ∀ b ∈ collectBoxes (generateMockAnalysis f r n), boxNormalized b := by
  intro b hb
  rw [collectBoxes_mock] at hb
  rcases List.mem_append.1 hb with h | h
  · obtain ⟨i, hi, hbi⟩ := List.mem_flatMap.1 h
    have hi16 : i < 16 := List.mem_range.1 hi
    have hmx : ((i % 4 : ℕ) : ℚ) ≤ 3 := by
      have : i % 4 ≤ 3 := by omega
      exact_mod_cast this
    have hmx0 : (0 : ℚ) ≤ ((i % 4 : ℕ) : ℚ) := Nat.cast_nonneg _
    have hmy : ((i / 4 : ℕ) : ℚ) ≤ 3 := by
      have : i / 4 ≤ 3 := by omega
      exact_mod_cast this
    have hmy0 : (0 : ℚ) ≤ ((i / 4 : ℕ) : ℚ) := Nat.cast_nonneg _
    simp [measureBoxes, mkMeasure, mkChord, mkNote] at hbi
    rcases hbi with rfl | rfl | ⟨a, ⟨x, hax⟩, rfl⟩ | rfl
    · exact boxNormalized_mk (by unfold measureX; linarith)
        (by unfold measureY; linarith) (by norm_num) (by norm_num)
        (by unfold measureX; linarith) (by unfold measureY; linarith)
    · exact boxNormalized_mk (by unfold measureX; linarith)
        (by unfold measureY; linarith) (by norm_num) (by norm_num)
        (by unfold measureX; linarith) (by unfold measureY; linarith)
    · have ha : a < (chordDataAt i).notes.length := List.fst_lt_of_mem_enum hax
      have ha4 : ((a : ℕ) : ℚ) ≤ 3 := by
        have : a ≤ 3 := by
          have := chordDataAt_notes_length i
          omega
        exact_mod_cast this
      have ha0 : (0 : ℚ) ≤ ((a : ℕ) : ℚ) := Nat.cast_nonneg _
      exact boxNormalized_mk (by unfold measureX; linarith)
        (by unfold measureY; linarith) (by norm_num) (by norm_num)
        (by unfold measureX; linarith) (by unfold measureY; linarith)
    · exact boxNormalized_mk (by unfold measureX; linarith)
        (by unfold measureY; linarith) (by norm_num) (by norm_num)
        (by unfold measureX; linarith) (by unfold measureY; linarith)
  · rw [List.mem_singleton] at h
    subst h
    exact boxNormalized_mk (by norm_num) (by norm_num) (by norm_num)
      (by norm_num) (by norm_num) (by norm_num)

/-- Witness for C7 at the modulation box of a concrete run. -/
theorem bounding_boxes_normalized_witness :
    boxNormalized ⟨0.06, 0.51, 0.88, 0.02⟩ :=
  bounding_boxes_normalized ("a") (fun _ => 0) 0 _
    (by rw [collectBoxes_mock]
        exact List.mem_append_right _ (List.mem_singleton_self _))

/-- C8: over one handleFile run, whatever the upload result and the poll
outcomes, the sequence of progress fractions reported through
setAnalysisProgress is monotonically non-decreasing. -/
theorem progress_reports_monotone (uploadOk : Bool)
    (outcomes : List PollOutcome) :
    List.Chain' (· ≤ ·) (handleFileReports uploadOk outcomes) := by
  cases uploadOk with
  | false => simp [handleFileReports]
  | true =>
    show List.Chain' (· ≤ ·) (0.2 :: pollReports 0 outcomes)
    refine List.chain'_cons'.2 ⟨?_, pollReports_chain outcomes 0⟩
    intro y hy
    have h := pollReports_lower outcomes 0 y (List.mem_of_mem_head? hy)
    have h0 : pollProg 0 = 0.2 := by unfold pollProg; norm_num
    rw [h0] at h
    exact h

/-- C9: the store's scale stays in [0.5, 3] in every reachable state: it
starts at 1.0, setScale stores the clamp max(0.5, min(3, s)), reset
restores 1.0, and no other action changes it. -/
theorem scale_clamped :
    initialState.scale = 1
    ∧ (∀ (σ : AppState) (s : ℚ),
        (step σ (Action.setScale s)).scale = max 0.5 (min 3 s))
    ∧ (∀ σ : AppState, (step σ Action.reset).scale = 1)
    ∧ (∀ (σ : AppState) (a : Action), (∀ t, a ≠ Action.setScale t) →
        a ≠ Action.reset → (step σ a).scale = σ.scale)
    ∧ (∀ acts : List Action,
        0.5 ≤ (reachAfter acts).scale ∧ (reachAfter acts).scale ≤ 3) := by
  refine ⟨by norm_num [initialState], fun σ s => rfl,
    fun σ => by norm_num [initialState, step], ?_, ?_⟩
  · intro σ a hs hr
    cases a with
    | setScale t => exact absurd rfl (hs t)
    | reset => exact absurd rfl hr
    | setPdfFile f => rfl
    | setPdfUrl u => rfl
    | setCurrentPage p => rfl
    | setTotalPages p => rfl
    | setAnalysis x => rfl
    | setIsAnalyzing b => rfl
    | setAnalysisProgress p => rfl
    | setHoverTarget t => rfl
    | setSelectedMeasure m => rfl
    | toggleSidebar => rfl
    | setCurrentKey k => rfl
  · intro acts
    exact foldl_scale_bounds acts initialState
      ⟨by norm_num [initialState], by norm_num [initialState]⟩

/-- Witness for C9: toggleSidebar leaves the initial scale unchanged. -/
theorem scale_clamped_witness :
    (step initialState Action.toggleSidebar).scale = initialState.scale :=
  scale_clamped.2.2.2.1 initialState Action.toggleSidebar
    (fun _ h => Action.noConfusion h) (fun h => Action.noConfusion h)

/-- C10: setAnalysis(a) updates exactly analysis (to a) and currentKey
(to the global key of a when a is non-null, otherwise null) and leaves
every other store field unchanged. -/
theorem setAnalysis_frame (σ : AppState) (a : Option AnalysisResult) :
    (step σ (Action.setAnalysis a)).analysis = a
    ∧ (step σ (Action.setAnalysis a)).currentKey
        = a.map (fun x => x.globalKey)
    ∧ (step σ (Action.setAnalysis a)).pdfFile = σ.pdfFile
    ∧ (step σ (Action.setAnalysis a)).pdfUrl = σ.pdfUrl
    ∧ (step σ (Action.setAnalysis a)).currentPage = σ.currentPage
    ∧ (step σ (Action.setAnalysis a)).totalPages = σ.totalPages
    ∧ (step σ (Action.setAnalysis a)).scale = σ.scale
    ∧ (step σ (Action.setAnalysis a)).isAnalyzing = σ.isAnalyzing
    ∧ (step σ (Action.setAnalysis a)).analysisProgress = σ.analysisProgress
    ∧ (step σ (Action.setAnalysis a)).hoverTarget = σ.hoverTarget
    ∧ (step σ (Action.setAnalysis a)).selectedMeasure = σ.selectedMeasure
    ∧ (step σ (Action.setAnalysis a)).showSidebar = σ.showSidebar :=
  ⟨rfl, rfl, rfl, rfl, rfl, rfl, rfl, rfl, rfl, rfl, rfl, rfl⟩

end MusicForDummies
